import Mathlib

/-!
Verification of the tdl-web backend (Go) against its natural-language
specification.  The definitions below are shallow embeddings of the Go
source under `web/backend/`: pure record types mirror the Go structs,
the in-memory task stores and the namespaced key-value storage are
modelled as association lists, and each handler is a pure function from
(request, store state) to (HTTP response, new store state).

Conventions:
* Go strings are Lean `String`s; where character-level reasoning is
  needed (`util.SafeClientID` / `util.RestoreClientIP` and `net.ParseIP`)
  the Go string is modelled as `List Char`.
* Go `float64` fields of the task records only ever hold integral
  percentages (`0`, `100`, `float64(i)`, or a value copied verbatim from
  another record), and the handlers never do float arithmetic on them,
  so they are modelled as `Int`.
* JSON marshalling of structured payloads is modelled by storing the
  structured value itself (constructor `KvVal.settingsJson` etc.); the
  handlers only ever round-trip such blobs through the store.
* `sync.Map` task stores and kv namespaces are association lists where
  `Set` replaces and `Delete` removes every binding of the key.
-/

namespace TdlWeb

/-! ## HTTP responses (web/backend/api/common.go) -/

/-- Unified API response of `common.go`: status code plus the `Response`
JSON body fields `success`, `error`, `message`. -/
structure HttpResponse where
  status : Nat
  success : Bool
  errMsg : String
  message : String
deriving Repr, DecidableEq

/-- Response written by `Success` (HTTP 200). -/
def successResp : HttpResponse :=
  { status := 200, success := true, errMsg := "", message := "" }

/-- Response written by `SuccessWithMessage` (HTTP 200 with a message). -/
def successWithMessageResp (msg : String) : HttpResponse :=
  { status := 200, success := true, errMsg := "", message := msg }

/-- Response written by `ValidationError` (HTTP 400 `StatusBadRequest`). -/
def validationErrorResp (msg : String) : HttpResponse :=
  { status := 400, success := false, errMsg := msg, message := "" }

/-- Response written by `NotFoundError` (HTTP 404 `StatusNotFound`). -/
def notFoundErrorResp (msg : String) : HttpResponse :=
  { status := 404, success := false, errMsg := msg, message := "" }

/-! ## Settings (web/backend/api/settings.go) -/

/-- The `Settings` struct of `settings.go` with JSON tags
`globalProxy`, `reconnectTimeout`, `maxThreads`, `maxTasks`, `partSize`. -/
structure Settings where
  GlobalProxy : String
  ReconnectTimeout : Int
  MaxThreads : Int
  MaxTasks : Int
  PartSize : Int
deriving Repr, DecidableEq

/-- The `UserInfo` struct of `service/auth.go`. -/
structure UserInfo where
  ID : Int
  Username : String
  Phone : String
  FirstName : String
  LastName : String
deriving Repr, DecidableEq

/-! ## Namespaced key-value storage (the `kv.Storage` dependency)

The Go handlers use `kvd.Open(namespace)` followed by `Get`/`Set`/`Delete`
on string keys.  The store is modelled flat: a namespace/key pair maps to
an optional value; `Get` of an absent key is the `NotFound` case. -/

/-- Value stored in a kv namespace.  Opaque byte payloads stay as strings;
JSON-marshalled structures are kept structured (marshalling is injective
and the handlers only round-trip these blobs). -/
inductive KvVal where
  /-- raw byte payload (for example the literal `established` marker) -/
  | bytes (s : String)
  /-- JSON-marshalled `Settings` blob stored under `settings/global` -/
  | settingsJson (s : Settings)
  /-- JSON-marshalled `UserInfo` blob stored under `user_<id>/user_info` -/
  | userInfoJson (u : UserInfo)
deriving Repr, DecidableEq

/-- The whole kv store: bindings from (namespace, key) to a value. -/
abbrev KvStore := List ((String × String) × KvVal)

/-- `Get` on an opened namespace: first binding of (namespace, key);
`none` is the `kv.ErrNotFound` outcome. -/
def kvGet (st : KvStore) (ns k : String) : Option KvVal :=
  (st.find? (fun b => decide (b.1 = (ns, k)))).map (fun b => b.2)

/-- `Set` on an opened namespace: replace every binding of (namespace, key). -/
def kvSet (st : KvStore) (ns k : String) (v : KvVal) : KvStore :=
  ((ns, k), v) :: st.filter (fun b => !(decide (b.1 = (ns, k))))

/-- `Delete` on an opened namespace: `Except.error ()` is the `NotFound`
error Go reports when the key is absent, otherwise the bindings of the
key are removed. -/
def kvDelete (st : KvStore) (ns k : String) : Except Unit KvStore :=
  if (kvGet st ns k).isSome then
    Except.ok (st.filter (fun b => !(decide (b.1 = (ns, k)))))
  else
    Except.error ()

/-! ## SettingsHandler.UpdateSettings -/

/-- Validation performed by `UpdateSettings` (settings.go lines 81-96):
all four bound checks must pass. -/
def settingsValid (s : Settings) : Bool :=
  decide (0 ≤ s.ReconnectTimeout) &&
  decide (1 ≤ s.MaxThreads ∧ s.MaxThreads ≤ 16) &&
  decide (1 ≤ s.MaxTasks ∧ s.MaxTasks ≤ 8) &&
  decide (64 ≤ s.PartSize ∧ s.PartSize ≤ 2048)

/-- `UpdateSettings` (settings.go lines 73-129) on an already-bound
`Settings` request body: the four validation checks run in order, the
first violated bound producing the `ValidationError` (HTTP 400) response
and leaving the store untouched; a valid body is marshalled and stored
under key `global` of namespace `settings`. -/
def updateSettings (st : KvStore) (s : Settings) : HttpResponse × KvStore :=
  if ¬ (0 ≤ s.ReconnectTimeout) then
    (validationErrorResp "Reconnect timeout must be non-negative", st)
  else if ¬ (1 ≤ s.MaxThreads ∧ s.MaxThreads ≤ 16) then
    (validationErrorResp "Max threads must be between 1 and 16", st)
  else if ¬ (1 ≤ s.MaxTasks ∧ s.MaxTasks ≤ 8) then
    (validationErrorResp "Max tasks must be between 1 and 8", st)
  else if ¬ (64 ≤ s.PartSize ∧ s.PartSize ≤ 2048) then
    (validationErrorResp "Part size must be between 64 and 2048 KB", st)
  else
    (successWithMessageResp "Settings updated successfully",
      kvSet st "settings" "global" (KvVal.settingsJson s))

/-! ## Download task store (web/backend/api/download.go)

`DownloadHandler.taskStore` is a `sync.Map` from task id to `TaskInfo`;
it is modelled as an association list with replace-on-store semantics. -/

/-- The `TaskInfo` struct of download.go (the `Config` map carries the
original request for display only and is not modelled; the Go field
`Type` is rendered `TaskType` since `Type` is reserved in Lean). -/
structure TaskInfo where
  ID : String
  TaskType : String
  Name : String
  Status : String
  Progress : Int
  Speed : String
  ETA : String
  Transferred : Int
  Total : Int
  CreatedAt : Int
  ErrorMsg : String
deriving Repr, DecidableEq

/-- In-memory download task store (`taskStore sync.Map`). -/
abbrev TaskStore := List (String × TaskInfo)

/-- `taskStore.Load`: first binding of the task id. -/
def taskLoad (st : TaskStore) (taskID : String) : Option TaskInfo :=
  (st.find? (fun b => decide (b.1 = taskID))).map (fun b => b.2)

/-- `taskStore.Store`: replace the binding of the task id. -/
def taskStoreSet (st : TaskStore) (taskID : String) (t : TaskInfo) : TaskStore :=
  (taskID, t) :: st.filter (fun b => !(decide (b.1 = taskID)))

/-- `DownloadHandler.updateTaskStatus` (download.go lines 272-283): when
the task exists, overwrite its status and progress, and overwrite the
error text only when `errorMsg` is non-empty; a missing task id leaves
the store unchanged. -/
def updateTaskStatus (st : TaskStore) (taskID status errorMsg : String)
    (progress : Int) : TaskStore :=
  match taskLoad st taskID with
  | none => st
  | some task =>
      let task1 := { task with Status := status, Progress := progress }
      let task2 := if errorMsg ≠ "" then { task1 with ErrorMsg := errorMsg } else task1
      taskStoreSet st taskID task2

/-- `DownloadHandler.getTaskInfo` (download.go lines 286-293). -/
def getTaskInfo (st : TaskStore) (taskID : String) : Option TaskInfo :=
  taskLoad st taskID

/-- `DownloadHandler.ResumeTask` (download.go lines 326-356): empty id is
a validation error; unknown id is not found; a task whose status is not
`paused` is a validation error; otherwise the status becomes `running`
with the task's recorded progress passed back into `updateTaskStatus`. -/
def resumeTask (st : TaskStore) (taskID : String) : HttpResponse × TaskStore :=
  if taskID = "" then
    (validationErrorResp "task ID is required", st)
  else
    match getTaskInfo st taskID with
    | none => (notFoundErrorResp "Task not found", st)
    | some task =>
        if task.Status ≠ "paused" then
          (validationErrorResp "Task is not in paused state", st)
        else
          (successWithMessageResp "Task resumed successfully",
            updateTaskStatus st taskID "running" "" task.Progress)

/-! ## Forward task store (web/backend/api/forward.go) -/

/-- The `ForwardTaskInfo` struct of forward.go (again `Config` and the
`MessageStats` display list are not modelled, and Go's `Type` field is
rendered `TaskType`). -/
structure ForwardTaskInfo where
  ID : String
  TaskType : String
  Name : String
  Status : String
  Progress : Int
  Speed : String
  ETA : String
  Forwarded : Int
  Total : Int
  Failed : Int
  CreatedAt : Int
  ErrorMsg : String
  FromSources : List String
  ToChat : String
deriving Repr, DecidableEq

/-- In-memory forward task store (`ForwardHandler.taskStore`). -/
abbrev ForwardTaskStore := List (String × ForwardTaskInfo)

/-- `taskStore.Load` for forward tasks. -/
def forwardTaskLoad (st : ForwardTaskStore) (taskID : String) : Option ForwardTaskInfo :=
  (st.find? (fun b => decide (b.1 = taskID))).map (fun b => b.2)

/-- `taskStore.Store` for forward tasks. -/
def forwardTaskStoreSet (st : ForwardTaskStore) (taskID : String)
    (t : ForwardTaskInfo) : ForwardTaskStore :=
  (taskID, t) :: st.filter (fun b => !(decide (b.1 = taskID)))

/-- `ForwardHandler.updateForwardTaskStatus` (forward.go lines 523-536):
when the task exists, overwrite status, progress, forwarded count and
failed count; the error text only when non-empty. -/
def updateForwardTaskStatus (st : ForwardTaskStore)
    (taskID status errorMsg : String) (progress : Int)
    (forwarded failed : Int) : ForwardTaskStore :=
  match forwardTaskLoad st taskID with
  | none => st
  | some task =>
      let task1 := { task with
        Status := status, Progress := progress,
        Forwarded := forwarded, Failed := failed }
      let task2 := if errorMsg ≠ "" then { task1 with ErrorMsg := errorMsg } else task1
      forwardTaskStoreSet st taskID task2

/-- Terminal completion update of `StartForward` (forward.go line 223):
`updateForwardTaskStatus(taskID, "completed", "", 100, 0, 0)` — the
forwarded and failed counters are both passed as literal `0`. -/
def completeForwardTask (st : ForwardTaskStore) (taskID : String) : ForwardTaskStore :=
  updateForwardTaskStatus st taskID "completed" "" 100 0 0

/-! ## Auth service (web/backend/service/auth.go) and namespaces -/

/-- Namespace opened by `processQRLogin` (auth.go line 244) for the login
client's kv storage; `tclient.New` receives it as `Options.KV`
(auth.go lines 270-274), so the serialized Telegram session blob of a
successful QR login lands in this namespace. -/
def loginClientNamespace (sessionID : String) : String :=
  "session_" ++ sessionID

/-- Namespace opened by `saveUserInfo` (auth.go line 463) and by
`IsAuthenticated`/`Logout` (auth.go lines 103, 530): `user_<id>`. -/
def userNamespace (userID : String) : String :=
  "user_" ++ userID

/-- Namespace opened by `createTelegramClientForUser` in download.go
(line 476), forward.go (line 371) and upload.go (line 319):
`fmt.Sprintf("user_%d", telegramID)`. -/
def clientForUserNamespace (telegramID : Int) : String :=
  "user_" ++ toString telegramID

/-- `AuthService.saveUserInfo` (auth.go lines 461-471): writes the
marshalled user info under `user_info` and the literal marker
`established` under `session`, both in `user_<id>`. -/
def saveUserInfo (st : KvStore) (userInfo : UserInfo) : KvStore :=
  let ns := userNamespace (toString userInfo.ID)
  let st1 := kvSet st ns "user_info" (KvVal.userInfoJson userInfo)
  kvSet st1 ns "session" (KvVal.bytes "established")

/-- `KvVal` is non-empty as a byte payload: `bytes ""` is the only value
whose length-0 check of auth.go line 116 fires. -/
def kvValIsEmpty : KvVal → Bool
  | KvVal.bytes s => s = ""
  | _ => false

/-- `AuthService.IsAuthenticated` (auth.go lines 102-134): absent or
empty `session` payload means not authenticated; the user info is
returned when present and parseable.  The model returns the
authenticated flag and the optional user info. -/
def isAuthenticated (st : KvStore) (userID : String) : Bool × Option UserInfo :=
  match kvGet st (userNamespace userID) "session" with
  | none => (false, none)
  | some sessionData =>
      if kvValIsEmpty sessionData then (false, none)
      else
        match kvGet st (userNamespace userID) "user_info" with
        | none => (true, none)
        | some (KvVal.userInfoJson u) => (true, some u)
        | some _ => (true, none)

/-- Delete following the `NotFound`-tolerance pattern of `Logout`
(`if err := ns.Delete(...); err != nil && !kv.IsNotFound(err)`): a
`NotFound` outcome leaves the store as it was. -/
def deleteTolerant (st : KvStore) (ns k : String) : KvStore :=
  match kvDelete st ns k with
  | Except.ok st2 => st2
  | Except.error _ => st

/-- `AuthService.Logout` (auth.go lines 529-544): delete `session` then
`user_info` from `user_<id>`, tolerating `NotFound` from either delete;
in the list model deletes only ever fail with `NotFound`, so `Logout`
always returns without error. -/
def logout (st : KvStore) (userID : String) : Except String KvStore :=
  Except.ok
    (deleteTolerant (deleteTolerant st (userNamespace userID) "session")
      (userNamespace userID) "user_info")

/-! ## Per-category transfer options handed to the engine

download.go / forward.go / upload.go each build an options struct for the
corresponding engine entry point (`dl.Run`, `forward.Run`, `up.Run`).
The structs below carry exactly the fields the handlers assign. -/

/-- The `ImportRequest` struct of download.go (JSON tags `chat_id`,
`download_path`, `template`, `json_data`, `selected_message_ids`,
`task_id`); the `any`-typed JSON payload is kept opaque. -/
structure ImportRequest where
  ChatID : String
  DownloadPath : String
  Template : String
  JsonData : String
  SelectedMessageIds : List Int
  TaskID : String
deriving Repr, DecidableEq

/-- JSON field names of `ImportRequest` (download.go lines 65-72). -/
def importRequestJsonKeys : List String :=
  ["chat_id", "download_path", "template", "json_data",
   "selected_message_ids", "task_id"]

/-- JSON field names of `DownloadRequest` (download.go lines 49-62). -/
def downloadRequestJsonKeys : List String :=
  ["chat_id", "file_types", "filter", "download_path", "urls", "template",
   "include", "exclude", "takeout", "continue", "desc", "task_id"]

/-- The `dl.Options` struct as populated by `tRunWithFiles`
(download.go lines 749-765). -/
structure DlOptions where
  Dir : String
  RewriteExt : Bool
  SkipSame : Bool
  Template : String
  URLs : List String
  Files : List String
  Include : List String
  Exclude : List String
  Desc : Bool
  Takeout : Bool
  Group : Bool
  Continue : Bool
  Restart : Bool
  Serve : Bool
  Port : Nat
deriving Repr, DecidableEq

/-- Options literal built inside `tRunWithFiles` (download.go lines
749-765): rewrite-extension and skip-same are the literals `false`, the
resume flag `Continue` is the literal `true` and `Restart` the literal
`false`, whatever the caller's request held. -/
def tRunWithFilesOpts (req : ImportRequest) (tempFile template : String) : DlOptions :=
  { Dir := req.DownloadPath
    RewriteExt := false
    SkipSame := false
    Template := template
    URLs := []
    Files := [tempFile]
    Include := []
    Exclude := []
    Desc := false
    Takeout := false
    Group := false
    Continue := true
    Restart := false
    Serve := false
    Port := 0 }

/-- The `ForwardRequest` struct of forward.go. -/
structure ForwardRequest where
  FromSources : List String
  ToChat : String
  EditText : String
  Mode : String
  Silent : Bool
  DryRun : Bool
  Single : Bool
  Desc : Bool
  TaskID : String
deriving Repr, DecidableEq

/-- The `forwarder.Mode` values used by the web handler. -/
inductive ForwardMode where
  | direct
  | clone
deriving Repr, DecidableEq

/-- Lower-casing of `strings.ToLower` as a character map (the mode
strings involved are ASCII). -/
def goToLower (s : String) : String :=
  ⟨s.data.map Char.toLower⟩

/-- Mode parsing of `StartForward` (forward.go lines 116-125): a switch
on `strings.ToLower(req.Mode)` accepting `clone`, `direct` and the empty
string, everything else being a validation error (`none` here). -/
def parseForwardMode (m : String) : Option ForwardMode :=
  match goToLower m with
  | "clone" => some ForwardMode.clone
  | "direct" => some ForwardMode.direct
  | "" => some ForwardMode.direct
  | _ => none

/-- The `forward.Options` struct as populated by `tRunWithForward`
(forward.go lines 443-452). -/
structure ForwardOptions where
  From : List String
  To : String
  Edit : String
  Mode : ForwardMode
  Silent : Bool
  DryRun : Bool
  Single : Bool
  Desc : Bool
deriving Repr, DecidableEq

/-- Options literal built inside `tRunWithForward` (forward.go lines
443-452) from the caller's request and the parsed mode. -/
def tRunWithForwardOpts (req : ForwardRequest) (mode : ForwardMode) : ForwardOptions :=
  { From := req.FromSources
    To := req.ToChat
    Edit := req.EditText
    Mode := mode
    Silent := req.Silent
    DryRun := req.DryRun
    Single := req.Single
    Desc := req.Desc }

/-- The `up.Options` struct as populated by `StartUpload`
(upload.go lines 192-198). -/
structure UpOptions where
  Chat : String
  Paths : List String
  Excludes : List String
  Remove : Bool
  Photo : Bool
deriving Repr, DecidableEq

/-- Form-value parsing of `StartUpload` (upload.go lines 100-101):
`c.PostForm("remove") == "true"` and `c.PostForm("photo") == "true"`. -/
def parseFormBool (v : String) : Bool :=
  v == "true"

/-- Options literal built by `StartUpload` (upload.go lines 192-198)
from the multipart form fields and the saved file paths. -/
def startUploadOpts (toChat : String) (filePaths excludes : List String)
    (removeForm photoForm : String) : UpOptions :=
  { Chat := toChat
    Paths := filePaths
    Excludes := excludes
    Remove := parseFormBool removeForm
    Photo := parseFormBool photoForm }

/-! ## Progress events (web/backend/websocket/hub.go) -/

/-- The `ProgressData` struct of hub.go lines 41-48: task id, progress
percentage, speed string, ETA string, transferred bytes, total bytes. -/
structure ProgressData where
  TaskID : String
  Progress : Int
  Speed : String
  ETA : String
  Transferred : Int
  Total : Int
deriving Repr, DecidableEq

/-- JSON field names of `ProgressData`, in struct order (hub.go lines
41-48).  This is the complete wire field set of a progress event. -/
def progressDataJsonKeys : List String :=
  ["task_id", "progress", "speed", "eta", "transferred", "total"]

/-- A broadcast WebSocket `Message` whose `Data` is a progress payload
(hub.go lines 34-38; Go's `Type` field is rendered `MsgType`). -/
structure ProgressMessage where
  MsgType : String
  Data : ProgressData
  Timestamp : Int
deriving Repr, DecidableEq

/-- `Hub.BroadcastProgress` (hub.go lines 109-116): wraps the payload in
a `Message` of type `progress` stamped with the current time. -/
def broadcastProgress (now : Int) (d : ProgressData) : ProgressMessage :=
  { MsgType := "progress", Data := d, Timestamp := now }

/-- Progress payload emitted by the `StartDownload` loop at step `i`
(download.go lines 164-171). -/
def startDownloadProgressEvent (taskID : String) (i : Nat) : ProgressData :=
  { TaskID := taskID
    Progress := (i : Int)
    Speed := "2.5 MB/s"
    ETA := toString ((100 - i) / 10) ++ "s"
    Transferred := (i : Int) * 1024 * 1024
    Total := 100 * 1024 * 1024 }

/-! ## Transfer engine core (modelled from the spec)

The transfer engine (`dl.Run` and the scheduler/dedup store behind it)
is not part of this repository's sources — the handlers call it through
the `app/dl` import.  The scheduler worker loop is therefore modelled
from the spec, §4.1. -/

/-- Terminal outcome of a work unit (§6 of the spec). -/
inductive UnitOutcome where
  | done
  | skipped
  | failed
deriving Repr, DecidableEq

/-- Modelled from the spec: a scheduler worker of §4.1 processing one
work unit, identified by its fingerprint.  It (a/b) checks the resumable
state store — if the fingerprint is marked Done and the plan's resume
flag is set, it emits Skipped without contacting the remote service;
(c) otherwise it executes the unit remotely (`exec`, one remote call);
(d) on success it persists Done.  Returns (outcome, remote calls made,
updated done set). -/
def schedWorker (resume : Bool) (exec : Nat → Bool) (done : List Nat)
    (fp : Nat) : UnitOutcome × Nat × List Nat :=
  if resume && decide (fp ∈ done) then
    (UnitOutcome.skipped, 0, done)
  else if exec fp then
    (UnitOutcome.done, 1, fp :: done)
  else
    (UnitOutcome.failed, 1, done)

/-- Modelled from the spec: dispatching the plan's work units in order
through `schedWorker`, accumulating outcomes and the remote-call count. -/
def schedLoop (resume : Bool) (exec : Nat → Bool) :
    List Nat → List Nat → List UnitOutcome × Nat × List Nat
  | [], done => ([], 0, done)
  | fp :: rest, done =>
      let r := schedWorker resume exec done fp
      let rs := schedLoop resume exec rest r.2.2
      (r.1 :: rs.1, r.2.1 + rs.2.1, rs.2.2)

/-- Modelled from the spec: one engine run over a transfer plan.  The
restart flag (the caller explicitly forcing a restart) clears the
persisted done marks before scheduling; otherwise the persisted state of
the namespace is consulted. -/
def schedRun (units : List Nat) (done : List Nat) (resume restart : Bool)
    (exec : Nat → Bool) : List UnitOutcome × Nat × List Nat :=
  schedLoop resume exec units (if restart then [] else done)

/-! ## Throttle state (modelled from the spec)

The retry/recovery/rate-limit middleware chain is engine code not under
this repository's sources; the flood-directive handling is modelled from
the spec, §4.2. -/

/-- Modelled from the spec: the rate-limit layer handling one flood
directive `(now, duration)` — the cooldown deadline becomes
`now + duration`, monotonically increasing only: a shorter directive
never shortens an existing longer cooldown. -/
def applyFloodDirective (deadline : Int) (ev : Int × Int) : Int :=
  max deadline (ev.1 + ev.2)

/-- Modelled from the spec: processing a sequence of flood directives
against the shared throttle state's cooldown deadline. -/
def processFloodDirectives (deadline : Int) (evs : List (Int × Int)) : Int :=
  evs.foldl applyFloodDirective deadline

/-! ## Client identifier encoding (web/backend/util, server.go part 2)

`SafeClientID` consults `net.ParseIP`, so the Go standard library's IP
parsing (net/netip `ParseAddr`, to which `net.ParseIP` delegates, with
`net.ParseIP` additionally rejecting any non-empty zone) is embedded
below over `List Char`. -/

/-- Digit test of the Go parsers (byte range `'0'..'9'`). -/
def isDigitByte (c : Char) : Bool :=
  decide (48 ≤ c.toNat) && decide (c.toNat ≤ 57)

/-- Hex digit value used by netip's inlined IPv6 group parsing
(`0-9`, `a-f`, `A-F`). -/
def hexDigitVal (c : Char) : Option Nat :=
  if 48 ≤ c.toNat ∧ c.toNat ≤ 57 then some (c.toNat - 48)
  else if 97 ≤ c.toNat ∧ c.toNat ≤ 102 then some (c.toNat - 97 + 10)
  else if 65 ≤ c.toNat ∧ c.toNat ≤ 70 then some (c.toNat - 65 + 10)
  else none

/-- Octet loop of netip's `parseIPv4Fields`: walks the string keeping the
current octet value, the digit count of the current octet and the number
of completed octets.  Rejects leading zeros (`digLen == 1 && val == 0`),
octet values above 255, empty octets (a dot at the start, at the end or
right after another dot), more than four octets, and any character other
than a digit or a dot. -/
def ipv4Loop : List Char → Nat → Nat → Nat → List Nat → Option (List Nat)
  | [], val, digLen, pos, fields =>
      if digLen = 0 then none
      else if pos < 3 then none
      else some (fields.reverse ++ [val])
  | c :: rest, val, digLen, pos, fields =>
      if isDigitByte c then
        if digLen = 1 ∧ val = 0 then none
        else if 255 < val * 10 + (c.toNat - 48) then none
        else ipv4Loop rest (val * 10 + (c.toNat - 48)) (digLen + 1) pos fields
      else if c = '.' then
        if digLen = 0 ∨ rest = [] then none
        else if pos = 3 then none
        else ipv4Loop rest 0 0 (pos + 1) (val :: fields)
      else none

/-- `parseIPv4` of net/netip: four dot-separated decimal octets. -/
def parseIPv4Go (s : List Char) : Option (List Nat) :=
  ipv4Loop s 0 0 0 []

/-- Containment of a character in a Go string (`strings.Contains` /
`bytealg.IndexByteString` on a one-byte pattern). -/
def strContains (s : List Char) (c : Char) : Bool :=
  decide (c ∈ s)

/-- Inlined hex-group scan of netip's `parseIPv6`: reads leading hex
digits into an accumulator, failing hard (`none`) when the group value
reaches 2^16, and otherwise reporting the value together with the number
of characters consumed (0 when the first character is not a hex digit). -/
def hexGroupLoop : List Char → Nat → Option (Nat × Nat)
  | [], acc => some (acc, 0)
  | c :: rest, acc =>
      match hexDigitVal c with
      | none => some (acc, 0)
      | some d =>
          if 65535 < acc * 16 + d then none
          else
            match hexGroupLoop rest (acc * 16 + d) with
            | none => none
            | some r => some (r.1, r.2 + 1)

/-- Main loop of netip's `parseIPv6` over the remaining characters:
`i` counts bytes already produced, `ellipsis` records the byte position
of a `::` when seen, `ip` accumulates the produced bytes.  Returns the
loop's exit state `(i, ellipsis, ip, remaining)`; `none` is a parse
error.  Fuel is structural (each recursive call consumes at least one
character, so the initial fuel `length + 1` can never run out). -/
def ipv6Loop : Nat → List Char → Nat → Option Nat → List Nat →
    Option (Nat × Option Nat × List Nat × List Char)
  | 0, _, _, _, _ => none
  | fuel + 1, s, i, ellipsis, ip =>
      if 16 ≤ i then some (i, ellipsis, ip, s)
      else
        match hexGroupLoop s 0 with
        | none => none
        | some (acc, off) =>
            if off = 0 then none
            else if (s.drop off).head? = some '.' then
              if ellipsis.isNone ∧ i ≠ 12 then none
              else if 16 < i + 4 then none
              else
                match parseIPv4Go s with
                | none => none
                | some fields => some (i + 4, ellipsis, ip ++ fields, [])
            else if s.drop off = [] then
              some (i + 2, ellipsis, ip ++ [acc / 256, acc % 256], [])
            else if (s.drop off).head? ≠ some ':' then none
            else if (s.drop off).length = 1 then none
            else if (s.drop off).tail.head? = some ':' then
              if ellipsis.isSome then none
              else if (s.drop off).tail.tail = [] then
                some (i + 2, some (i + 2), ip ++ [acc / 256, acc % 256], [])
              else
                ipv6Loop fuel ((s.drop off).tail.tail) (i + 2) (some (i + 2))
                  (ip ++ [acc / 256, acc % 256])
            else
              ipv6Loop fuel ((s.drop off).tail) (i + 2) ellipsis
                (ip ++ [acc / 256, acc % 256])

/-- Exit-state handling of netip's `parseIPv6`: the entire string must
have been consumed; a short parse expands the `::` with zero bytes, a
full 16-byte parse must not contain a `::`. -/
def ipv6Finish : Option (Nat × Option Nat × List Nat × List Char) → Option (List Nat)
  | none => none
  | some (i, ellipsis, ip, sRem) =>
      if sRem ≠ [] then none
      else if i < 16 then
        match ellipsis with
        | none => none
        | some e => some (ip.take e ++ List.replicate (16 - i) 0 ++ ip.drop e)
      else if ellipsis.isSome then none
      else some ip

/-- `parseIPv6` of net/netip as used through `net.ParseIP`: a `%` zone
separator is never accepted (netip rejects an empty zone and `net.ParseIP`
rejects any address carrying a non-empty zone), a leading `::` may stand
alone (the unspecified address) or be followed by groups. -/
def parseIPv6Go (s : List Char) : Option (List Nat) :=
  if strContains s '%' then none
  else if 2 ≤ s.length ∧ s.head? = some ':' ∧ s.tail.head? = some ':' then
    let rest := s.tail.tail
    if rest = [] then some (List.replicate 16 0)
    else ipv6Finish (ipv6Loop (rest.length + 1) rest 0 (some 0) [])
  else ipv6Finish (ipv6Loop (s.length + 1) s 0 none [])

/-- Parsed IP with the 4-byte / 16-byte distinction `To4` relies on. -/
inductive GoIP where
  | v4 (fields : List Nat)
  | v6 (bytes : List Nat)
deriving Repr, DecidableEq

/-- `net.ParseIP`: dispatch on the first `.`, `:` or `%` of the string
(netip `ParseAddr`); no special character at all, or a leading `%`,
means failure. -/
def goParseIP (s : List Char) : Option GoIP :=
  match s.find? (fun c => decide (c = '.') || decide (c = ':') || decide (c = '%')) with
  | none => none
  | some c =>
      if c = '.' then (parseIPv4Go s).map GoIP.v4
      else if c = ':' then (parseIPv6Go s).map GoIP.v6
      else none

/-- `ip.To4() != nil`: a parsed IPv4, or a 16-byte address in the
IPv4-mapped form (ten zero bytes then `0xff 0xff`). -/
def goTo4IsSome : GoIP → Bool
  | GoIP.v4 _ => true
  | GoIP.v6 b => decide (b.take 10 = List.replicate 10 0) &&
      decide ((b.drop 10).take 2 = [255, 255])

/-- Characters that can occur in a string accepted by `net.ParseIP`:
hex digits, `:` and `.` — in particular neither `_` nor `-`. -/
def ipCharB (c : Char) : Bool :=
  (hexDigitVal c).isSome || decide (c = ':') || decide (c = '.')

/-- `strings.ReplaceAll` with single-character pattern and single-character
replacement, as used on IP strings by `SafeClientID`/`RestoreClientIP`. -/
def replaceAllChar (s : List Char) (a b : Char) : List Char :=
  s.map (fun c => if c = a then b else c)

/-- Character expansion of `sanitizeString` (server.go part 2 lines
229-249).  The Go code applies nine whole-string `ReplaceAll` passes in
map-iteration order; since no replacement text contains any of the nine
pattern characters the passes commute and equal this per-character
expansion. -/
def sanitizeChar (c : Char) : List Char :=
  if c = ':' then "_colon_".toList
  else if c = '<' then "_lt_".toList
  else if c = '>' then "_gt_".toList
  else if c = '"' then "_quote_".toList
  else if c = '|' then "_pipe_".toList
  else if c = '?' then "_question_".toList
  else if c = '*' then "_star_".toList
  else if c = '\\' then "_backslash_".toList
  else if c = '/' then "_slash_".toList
  else [c]

/-- `sanitizeString` of server.go part 2. -/
def sanitizeString (s : List Char) : List Char :=
  (s.map sanitizeChar).flatten

/-- `util.SafeClientID` (server.go part 2 lines 190-210): a string
containing a colon has every colon replaced by an underscore (the Go
code does the same replacement in both the valid-IPv6 and the
colon-containing-fallback branch); otherwise a string `net.ParseIP`
accepts with a 4-byte form has every dot replaced by a dash; anything
else goes through the generic sanitizer. -/
def safeClientID (s : List Char) : List Char :=
  if strContains s ':' then
    replaceAllChar s ':' '_'
  else if (match goParseIP s with
           | some ip => goTo4IsSome ip
           | none => false) then
    replaceAllChar s '.' '-'
  else
    sanitizeString s

/-- `util.RestoreClientIP` (server.go part 2 lines 213-226). -/
def restoreClientIP (s : List Char) : List Char :=
  if strContains s '-' && !(strContains s '_') then replaceAllChar s '-' '.'
  else if strContains s '_' then replaceAllChar s '_' ':'
  else s

/-! ## Helper lemmas -/

theorem processFloodDirectives_eq_foldl_max (d0 : Int) (evs : List (Int × Int)) :
    processFloodDirectives d0 evs = (evs.map (fun ev => ev.1 + ev.2)).foldl max d0 := by
  induction evs generalizing d0 with
  | nil => rfl
  | cons e rest ih =>
      simp only [processFloodDirectives, List.foldl_cons, List.map_cons] at *
      exact ih (applyFloodDirective d0 e)

theorem le_processFloodDirectives (d0 : Int) (evs : List (Int × Int)) :
    d0 ≤ processFloodDirectives d0 evs := by
  induction evs generalizing d0 with
  | nil => exact le_refl d0
  | cons e rest ih =>
      calc d0 ≤ applyFloodDirective d0 e := le_max_left _ _
        _ ≤ processFloodDirectives (applyFloodDirective d0 e) rest := ih _
        _ = processFloodDirectives d0 (e :: rest) := rfl

theorem kvGet_filterOut (st : KvStore) (ns k : String) :
    kvGet (st.filter (fun b => !(decide (b.1 = (ns, k))))) ns k = none := by
  have h : List.find? (fun b => decide (b.1 = (ns, k)))
      (st.filter (fun b => !(decide (b.1 = (ns, k))))) = none := by
    apply List.find?_eq_none.mpr
    intro x hx
    have h2 := (List.mem_filter.mp hx).2
    simpa using h2
  unfold kvGet
  rw [h]
  rfl

theorem kvGet_none_filter (st : KvStore) (ns k : String)
    (p : (String × String) × KvVal → Bool) (h : kvGet st ns k = none) :
    kvGet (st.filter p) ns k = none := by
  have h2 : List.find? (fun b => decide (b.1 = (ns, k))) st = none := by
    cases hf : List.find? (fun b => decide (b.1 = (ns, k))) st with
    | none => rfl
    | some x =>
        unfold kvGet at h
        rw [hf] at h
        simp at h
  have h3 := List.find?_eq_none.mp h2
  have h4 : List.find? (fun b => decide (b.1 = (ns, k))) (st.filter p) = none := by
    apply List.find?_eq_none.mpr
    intro x hx
    exact h3 x (List.mem_filter.mp hx).1
  unfold kvGet
  rw [h4]
  rfl

theorem schedLoop_done_mono (resume : Bool) (exec : Nat → Bool) (units : List Nat) :
    ∀ done : List Nat, ∀ fp ∈ done, fp ∈ (schedLoop resume exec units done).2.2 := by
  induction units with
  | nil => intro done fp hfp; exact hfp
  | cons u rest ih =>
      intro done fp hfp
      have hw : ∀ x ∈ done, x ∈ (schedWorker resume exec done u).2.2 := by
        intro x hx
        unfold schedWorker
        split_ifs <;> simp [hx]
      exact ih _ fp (hw fp hfp)

theorem schedLoop_marks (resume : Bool) (exec : Nat → Bool) (units : List Nat) :
    ∀ done : List Nat,
    (∀ o ∈ (schedLoop resume exec units done).1, o ≠ UnitOutcome.failed) →
    ∀ fp ∈ units, fp ∈ (schedLoop resume exec units done).2.2 := by
  induction units with
  | nil => intro done _ fp hfp; exact absurd hfp (List.not_mem_nil fp)
  | cons u rest ih =>
      intro done h fp hfp
      have hhead : (schedWorker resume exec done u).1 ≠ UnitOutcome.failed := by
        apply h
        exact List.mem_cons_self _ _
      have htail : ∀ o ∈ (schedLoop resume exec rest (schedWorker resume exec done u).2.2).1,
          o ≠ UnitOutcome.failed := by
        intro o ho
        apply h
        exact List.mem_cons_of_mem _ ho
      rcases List.mem_cons.mp hfp with rfl | hmem
      · have hin : fp ∈ (schedWorker resume exec done fp).2.2 := by
          unfold schedWorker at hhead ⊢
          by_cases hc : resume && decide (fp ∈ done)
          · rw [if_pos hc]
            simp only [Bool.and_eq_true, decide_eq_true_eq] at hc
            exact hc.2
          · rw [if_neg hc] at hhead ⊢
            by_cases he : exec fp
            · rw [if_pos he]
              exact List.mem_cons_self _ _
            · rw [if_neg he] at hhead
              exact absurd rfl hhead
        exact schedLoop_done_mono resume exec rest _ fp hin
      · exact ih _ htail fp hmem

theorem schedLoop_all_done_skips (exec : Nat → Bool) (units : List Nat) :
    ∀ done : List Nat, (∀ fp ∈ units, fp ∈ done) →
    schedLoop true exec units done =
      (units.map (fun _ => UnitOutcome.skipped), 0, done) := by
  induction units with
  | nil => intro done _; rfl
  | cons u rest ih =>
      intro done h
      have hu : u ∈ done := h u (List.mem_cons_self _ _)
      have hw : schedWorker true exec done u = (UnitOutcome.skipped, 0, done) := by
        unfold schedWorker
        rw [if_pos (by simp [hu])]
      have ht := ih done (fun fp hfp => h fp (List.mem_cons_of_mem _ hfp))
      unfold schedLoop
      rw [hw]
      simp only []
      rw [ht]
      simp

theorem updateTaskStatus_running (st : TaskStore) (taskID : String) (task : TaskInfo)
    (h : taskLoad st taskID = some task) :
    updateTaskStatus st taskID "running" "" task.Progress =
      taskStoreSet st taskID { task with Status := "running" } := by
  unfold updateTaskStatus
  rw [h]
  have h2 : ({ task with Status := "running", Progress := task.Progress } : TaskInfo) =
      { task with Status := "running" } := by
    cases task
    rfl
  simp [h2]

theorem string_data_append (a b : String) : (a ++ b).data = a.data ++ b.data := by
  cases a
  cases b
  rfl

theorem kvGet_kvSet_self (st : KvStore) (ns k : String) (v : KvVal) :
    kvGet (kvSet st ns k v) ns k = some v := by
  simp [kvGet, kvSet, List.find?]

theorem kvGet_filter_ne (st : KvStore) (ns k ns2 k2 : String) (h : (ns2, k2) ≠ (ns, k)) :
    kvGet (st.filter (fun b => !(decide (b.1 = (ns, k))))) ns2 k2 = kvGet st ns2 k2 := by
  induction st with
  | nil => rfl
  | cons b rest ih =>
      by_cases hb : b.1 = (ns, k)
      · have hb2 : ¬ (b.1 = (ns2, k2)) := by
          rw [hb]
          exact fun hx => h hx.symm
        have hf : List.filter (fun b => !(decide (b.1 = (ns, k)))) (b :: rest) =
            List.filter (fun b => !(decide (b.1 = (ns, k)))) rest := by
          simp [List.filter_cons, hb]
        rw [hf, ih]
        unfold kvGet
        rw [List.find?_cons_of_neg _ (by simp [hb2])]
      · have hf : List.filter (fun b => !(decide (b.1 = (ns, k)))) (b :: rest) =
            b :: List.filter (fun b => !(decide (b.1 = (ns, k)))) rest := by
          simp [List.filter_cons, hb]
        rw [hf]
        by_cases hb2 : b.1 = (ns2, k2)
        · unfold kvGet
          rw [List.find?_cons_of_pos _ (by simp [hb2]),
            List.find?_cons_of_pos _ (by simp [hb2])]
        · unfold kvGet
          rw [List.find?_cons_of_neg _ (by simp [hb2]),
            List.find?_cons_of_neg _ (by simp [hb2])]
          exact ih

theorem kvGet_kvSet_ne (st : KvStore) (ns k ns2 k2 : String) (v : KvVal)
    (h : (ns2, k2) ≠ (ns, k)) :
    kvGet (kvSet st ns k v) ns2 k2 = kvGet st ns2 k2 := by
  have hh : ¬ (((ns, k), v).1 = (ns2, k2)) := fun hx => h hx.symm
  have h1 : kvGet (kvSet st ns k v) ns2 k2 =
      kvGet (st.filter (fun b => !(decide (b.1 = (ns, k))))) ns2 k2 := by
    unfold kvGet kvSet
    rw [List.find?_cons_of_neg _ (by simp [hh])]
  rw [h1]
  exact kvGet_filter_ne st ns k ns2 k2 h

theorem loginClientNamespace_ne_userNamespace (sid uid : String) :
    loginClientNamespace sid ≠ userNamespace uid := by
  intro h
  have h2 : ("session_" ++ sid).data.head? = ("user_" ++ uid).data.head? := by
    exact congrArg (fun t => t.data.head?) h
  rw [string_data_append, string_data_append] at h2
  have h3 : ("session_".data ++ sid.data).head? = some 's' := rfl
  have h4 : ("user_".data ++ uid.data).head? = some 'u' := rfl
  rw [h3, h4] at h2
  simp at h2

/-! ## Claim theorems -/

/-- C2: the shared Throttle State's cooldown deadline is monotonically
non-decreasing under flood directives — after processing a sequence of
directives the deadline is the maximum of the initial deadline and all
`now + duration` values observed as each directive arrived, so a later,
shorter directive never shortens an active cooldown. -/
theorem C2_throttle_deadline_monotonic (d0 : Int) (evs : List (Int × Int)) (e : Int × Int) :
    processFloodDirectives d0 evs = (evs.map (fun ev => ev.1 + ev.2)).foldl max d0 ∧
    d0 ≤ processFloodDirectives d0 evs ∧
    processFloodDirectives d0 evs ≤ processFloodDirectives d0 (evs ++ [e]) := by
  refine ⟨processFloodDirectives_eq_foldl_max d0 evs, le_processFloodDirectives d0 evs, ?_⟩
  have : processFloodDirectives d0 (evs ++ [e]) =
      processFloodDirectives (processFloodDirectives d0 evs) [e] := by
    simp [processFloodDirectives, List.foldl_append]
  rw [this]
  exact le_processFloodDirectives _ _

/-- C3: a settings-update request is persisted to the `settings`
namespace exactly when all four bounds hold (`ReconnectTimeout ≥ 0`,
`1 ≤ MaxThreads ≤ 16`, `1 ≤ MaxTasks ≤ 8`, `64 ≤ PartSize ≤ 2048`);
a violated bound yields HTTP 400 and an unchanged store, so any
persisted MaxThreads lies within 1–16. -/
theorem C3_update_settings_validation (st : KvStore) (s : Settings) :
    (updateSettings st s).2 =
      (if settingsValid s then kvSet st "settings" "global" (KvVal.settingsJson s) else st) ∧
    (updateSettings st s).1.status = (if settingsValid s then 200 else 400) ∧
    kvGet (updateSettings st s).2 "settings" "global" =
      (if settingsValid s then some (KvVal.settingsJson s) else kvGet st "settings" "global") ∧
    (settingsValid s = true ↔
      (0 ≤ s.ReconnectTimeout ∧ (1 ≤ s.MaxThreads ∧ s.MaxThreads ≤ 16) ∧
       (1 ≤ s.MaxTasks ∧ s.MaxTasks ≤ 8) ∧ (64 ≤ s.PartSize ∧ s.PartSize ≤ 2048))) := by
  have hget : kvGet (kvSet st "settings" "global" (KvVal.settingsJson s))
      "settings" "global" = some (KvVal.settingsJson s) := by
    simp [kvGet, kvSet, List.find?]
  have hvalid : settingsValid s = true ↔
      (0 ≤ s.ReconnectTimeout ∧ (1 ≤ s.MaxThreads ∧ s.MaxThreads ≤ 16) ∧
       (1 ≤ s.MaxTasks ∧ s.MaxTasks ≤ 8) ∧ (64 ≤ s.PartSize ∧ s.PartSize ≤ 2048)) := by
    simp [settingsValid]
    tauto
  by_cases h1 : 0 ≤ s.ReconnectTimeout
  · by_cases h2 : 1 ≤ s.MaxThreads ∧ s.MaxThreads ≤ 16
    · by_cases h3 : 1 ≤ s.MaxTasks ∧ s.MaxTasks ≤ 8
      · by_cases h4 : 64 ≤ s.PartSize ∧ s.PartSize ≤ 2048
        · have hv : settingsValid s = true := hvalid.mpr ⟨h1, h2, h3, h4⟩
          simp [updateSettings, h1, h2, h3, h4, hv, successWithMessageResp, hget, hvalid]
        · have hv : settingsValid s = false := by
            simp only [settingsValid]
            simp [h4]
          simp [updateSettings, h1, h2, h3, h4, hv, validationErrorResp, hvalid]
      · have hv : settingsValid s = false := by
          simp only [settingsValid]
          simp [h3]
        simp [updateSettings, h1, h2, h3, hv, validationErrorResp, hvalid]
    · have hv : settingsValid s = false := by
        simp only [settingsValid]
        simp [h2]
      simp [updateSettings, h1, h2, hv, validationErrorResp, hvalid]
  · have hv : settingsValid s = false := by
      simp only [settingsValid]
      simp [h1]
    simp [updateSettings, h1, hv, validationErrorResp, hvalid]

/-- C4 counterexample: the claim says the download path passes the
caller's rewrite-extension and skip-same flags, but for a concrete
request the options handed to `dl.Run` fix both to `false`, and
neither the import nor the download request JSON surface carries any
`rewrite_ext`/`skip_same` field the caller could set. -/
theorem C4_counterexample :
    ((tRunWithFilesOpts
        { ChatID := "777", DownloadPath := "/downloads", Template := "{{ .FileName }}",
          JsonData := "{}", SelectedMessageIds := [5], TaskID := "task1" }
        "/tmp/import.json" "{{ .FileName }}").RewriteExt,
      (tRunWithFilesOpts
        { ChatID := "777", DownloadPath := "/downloads", Template := "{{ .FileName }}",
          JsonData := "{}", SelectedMessageIds := [5], TaskID := "task1" }
        "/tmp/import.json" "{{ .FileName }}").SkipSame) = (false, false) ∧
    "rewrite_ext" ∉ importRequestJsonKeys ∧
    "skip_same" ∉ importRequestJsonKeys ∧
    "rewrite_ext" ∉ downloadRequestJsonKeys ∧
    "skip_same" ∉ downloadRequestJsonKeys := by
  refine ⟨rfl, ?_, ?_, ?_, ?_⟩ <;> decide

/-- C4 (amended): the forward path passes the caller's edit-text and
parsed mode selection and the upload path passes the caller's
treat-as-photo and delete-after-upload form flags, but the download path
passes no caller flags for rewrite-extension and skip-same — it fixes
both to `false` (the requests carry no such fields). -/
theorem C4_options_reflect_request (req : ForwardRequest) (mode : ForwardMode)
    (ireq : ImportRequest) (tempFile template toChat : String)
    (filePaths excludes : List String) (removeForm photoForm : String) :
    (tRunWithForwardOpts req mode).Edit = req.EditText ∧
    (tRunWithForwardOpts req mode).Mode = mode ∧
    parseForwardMode "clone" = some ForwardMode.clone ∧
    parseForwardMode "direct" = some ForwardMode.direct ∧
    parseForwardMode "" = some ForwardMode.direct ∧
    (startUploadOpts toChat filePaths excludes removeForm photoForm).Photo =
      parseFormBool photoForm ∧
    (startUploadOpts toChat filePaths excludes removeForm photoForm).Remove =
      parseFormBool removeForm ∧
    (tRunWithFilesOpts ireq tempFile template).RewriteExt = false ∧
    (tRunWithFilesOpts ireq tempFile template).SkipSame = false := by
  refine ⟨rfl, rfl, ?_, ?_, ?_, rfl, rfl, rfl, rfl⟩ <;> decide

/-- C5 counterexample: a concrete progress event broadcast by the
`StartDownload` loop carries exactly the six fields `task_id`,
`progress`, `speed`, `eta`, `transferred`, `total` — there is no
current-file/unit-name field (and no unit-index field) as the claim
requires. -/
theorem C5_counterexample :
    (broadcastProgress 1700000000 (startDownloadProgressEvent "download-1" 0)).Data =
      { TaskID := "download-1", Progress := 0, Speed := "2.5 MB/s", ETA := "10s",
        Transferred := 0, Total := 104857600 } ∧
    progressDataJsonKeys = ["task_id", "progress", "speed", "eta", "transferred", "total"] ∧
    "file_name" ∉ progressDataJsonKeys ∧
    "current_file" ∉ progressDataJsonKeys ∧
    "filename" ∉ progressDataJsonKeys ∧
    "name" ∉ progressDataJsonKeys ∧
    "file" ∉ progressDataJsonKeys ∧
    "unit_index" ∉ progressDataJsonKeys ∧
    "index" ∉ progressDataJsonKeys := by
  refine ⟨?_, rfl, ?_, ?_, ?_, ?_, ?_, ?_, ?_⟩ <;> decide

/-- C5 (amended): every progress event is a `progress`-typed message
whose payload carries task id, progress percentage, speed, ETA, bytes
transferred and total bytes — its complete wire field set is
`task_id, progress, speed, eta, transferred, total`, with no unit-index
or current-file/unit-name field. -/
theorem C5_progress_event_fields (now : Int) (d : ProgressData) (taskID : String) (i : Nat) :
    (broadcastProgress now d).MsgType = "progress" ∧
    (broadcastProgress now d).Data = d ∧
    (broadcastProgress now d).Timestamp = now ∧
    progressDataJsonKeys = ["task_id", "progress", "speed", "eta", "transferred", "total"] ∧
    (startDownloadProgressEvent taskID i).TaskID = taskID ∧
    (startDownloadProgressEvent taskID i).Transferred = (i : Int) * 1024 * 1024 ∧
    (startDownloadProgressEvent taskID i).Total = 100 * 1024 * 1024 :=
  ⟨rfl, rfl, rfl, rfl, rfl, rfl, rfl⟩

/-- C6 counterexample: a forward task that accumulated 3 failed units
during its run still reads `Failed = 0` (not 3) on the completed record,
because the terminal completion update passes literal zeros. -/
theorem C6_counterexample :
    (forwardTaskLoad
        (completeForwardTask
          [("fwd-1",
            { ID := "fwd-1", TaskType := "forward", Name := "n", Status := "running",
              Progress := 80, Speed := "1.0 msg/s", ETA := "--", Forwarded := 7,
              Total := 10, Failed := 3, CreatedAt := 0, ErrorMsg := "",
              FromSources := ["chat_a"], ToChat := "chat_b" })]
          "fwd-1")
        "fwd-1").map (fun r => (r.Status, r.Failed)) = some ("completed", 0) ∧
    ((0 : Int) ≠ 3) := by
  exact ⟨by decide, by decide⟩

/-- C6 (amended): a run that finishes reports overall completion
(status `completed`, progress 100) on the terminal task record, but the
completion update resets the per-category counters — the `Failed`
counter on the completed forward task is always 0, regardless of how
many units failed during the run. -/
theorem C6_forward_completion_resets_failed (st : ForwardTaskStore) (taskID : String)
    (t : ForwardTaskInfo) (h : forwardTaskLoad st taskID = some t) :
    forwardTaskLoad (completeForwardTask st taskID) taskID =
      some { t with Status := "completed", Progress := 100, Forwarded := 0, Failed := 0 } := by
  have hstep : completeForwardTask st taskID =
      forwardTaskStoreSet st taskID
        { t with Status := "completed", Progress := 100, Forwarded := 0, Failed := 0 } := by
    unfold completeForwardTask updateForwardTaskStatus
    rw [h]
    simp
  rw [hstep]
  unfold forwardTaskLoad forwardTaskStoreSet
  rw [List.find?_cons_of_pos _ (by simp)]
  rfl

/-- C7 counterexample: after a QR login with login-session id `abc123`
for the Telegram account 123456789, the namespace holding the login
client's serialized session (`session_abc123`) is not the namespace
(`user_123456789`) that `saveUserInfo` writes, `IsAuthenticated` reads
and `createTelegramClientForUser` opens — the account-state writes are
not visible under the login client's namespace. -/
theorem C7_counterexample :
    loginClientNamespace "abc123" ≠ clientForUserNamespace 123456789 ∧
    kvGet
      (saveUserInfo []
        { ID := 123456789, Username := "tester", Phone := "100", FirstName := "A",
          LastName := "B" })
      (loginClientNamespace "abc123") "session" = none ∧
    kvGet
      (saveUserInfo []
        { ID := 123456789, Username := "tester", Phone := "100", FirstName := "A",
          LastName := "B" })
      (clientForUserNamespace 123456789) "session" = some (KvVal.bytes "established") := by
  refine ⟨?_, ?_, ?_⟩ <;> decide

/-- C7 (amended): the user-info blob, the `established` session marker,
`IsAuthenticated` and per-user client construction all share the
namespace `user_<telegramID>`, but the serialized login session blob of
a QR login is written via the login client's kv namespace
`session_<loginSessionID>`, which differs from every `user_<...>`
namespace. -/
theorem C7_login_session_namespace (st : KvStore) (sid uid : String) (u : UserInfo) :
    userNamespace (toString u.ID) = clientForUserNamespace u.ID ∧
    kvGet (saveUserInfo st u) (userNamespace (toString u.ID)) "session" =
      some (KvVal.bytes "established") ∧
    kvGet (saveUserInfo st u) (userNamespace (toString u.ID)) "user_info" =
      some (KvVal.userInfoJson u) ∧
    loginClientNamespace sid ≠ userNamespace uid := by
  refine ⟨rfl, ?_, ?_, loginClientNamespace_ne_userNamespace sid uid⟩
  · unfold saveUserInfo
    exact kvGet_kvSet_self _ _ _ _
  · unfold saveUserInfo
    rw [kvGet_kvSet_ne _ _ _ _ _ _ (by simp)]
    exact kvGet_kvSet_self _ _ _ _

/-- C1: a transfer plan executed to completion (no unit failed), then
re-executed with the resume flag set, makes zero additional remote calls
— every fingerprint already marked Done is skipped, and a Done
fingerprint is only ever cleared by an explicit restart; the web
download path invokes the engine with the resume flag (`Continue`) fixed
to `true` and `Restart` fixed to `false`. -/
theorem C1_idempotent_resume (units done0 : List Nat) (resume1 restart1 : Bool)
    (exec exec2 : Nat → Bool) (req : ImportRequest) (tempFile template : String)
    (hc : ∀ o ∈ (schedRun units done0 resume1 restart1 exec).1, o ≠ UnitOutcome.failed) :
    (schedRun units (schedRun units done0 resume1 restart1 exec).2.2 true false exec2).2.1 = 0 ∧
    (∀ o ∈ (schedRun units (schedRun units done0 resume1 restart1 exec).2.2 true false exec2).1,
      o = UnitOutcome.skipped) ∧
    (tRunWithFilesOpts req tempFile template).Continue = true ∧
    (tRunWithFilesOpts req tempFile template).Restart = false := by
  have hall : ∀ fp ∈ units, fp ∈ (schedRun units done0 resume1 restart1 exec).2.2 :=
    schedLoop_marks resume1 exec units _ hc
  have hskip := schedLoop_all_done_skips exec2 units
    (schedRun units done0 resume1 restart1 exec).2.2 hall
  have hrun : schedRun units (schedRun units done0 resume1 restart1 exec).2.2 true false exec2 =
      (units.map (fun _ => UnitOutcome.skipped), 0,
        (schedRun units done0 resume1 restart1 exec).2.2) := hskip
  refine ⟨?_, ?_, rfl, rfl⟩
  · rw [hrun]
  · rw [hrun]
    intro o ho
    simp only [List.mem_map] at ho
    obtain ⟨_, _, rfl⟩ := ho
    rfl

/-- C1 witness: a two-unit plan run to completion and re-run with resume
set; the second run makes zero remote calls and skips everything even
under an executor that would fail every call, and the import path's
options fix `Continue = true`, `Restart = false`. -/
theorem C1_witness :
    (∀ o ∈ (schedRun [1, 2] [] true false (fun _ => true)).1, o ≠ UnitOutcome.failed) ∧
    ((schedRun [1, 2] (schedRun [1, 2] [] true false (fun _ => true)).2.2
        true false (fun _ => false)).2.1 = 0 ∧
      (∀ o ∈ (schedRun [1, 2] (schedRun [1, 2] [] true false (fun _ => true)).2.2
          true false (fun _ => false)).1, o = UnitOutcome.skipped) ∧
      (tRunWithFilesOpts
          { ChatID := "1", DownloadPath := "/d", Template := "t", JsonData := "{}",
            SelectedMessageIds := [], TaskID := "t1" } "/tmp/x.json" "tpl").Continue = true ∧
      (tRunWithFilesOpts
          { ChatID := "1", DownloadPath := "/d", Template := "t", JsonData := "{}",
            SelectedMessageIds := [], TaskID := "t1" } "/tmp/x.json" "tpl").Restart = false) :=
  ⟨by decide,
    C1_idempotent_resume [1, 2] [] true false (fun _ => true) (fun _ => false)
      { ChatID := "1", DownloadPath := "/d", Template := "t", JsonData := "{}",
        SelectedMessageIds := [], TaskID := "t1" } "/tmp/x.json" "tpl" (by decide)⟩

/-- C8: after `Logout(userID)` (which always succeeds — a `NotFound`
from either delete is tolerated), `IsAuthenticated(userID)` reports not
authenticated, and logging out again succeeds and leaves the namespace
in exactly the same state. -/
theorem C8_logout_idempotent (st : KvStore) (uid : String) :
    ∃ st2, logout st uid = Except.ok st2 ∧
      (isAuthenticated st2 uid).1 = false ∧
      logout st2 uid = Except.ok st2 := by
  have hone : ∀ (s : KvStore) (k : String),
      kvGet (deleteTolerant s (userNamespace uid) k) (userNamespace uid) k = none := by
    intro s k
    unfold deleteTolerant kvDelete
    by_cases h1 : (kvGet s (userNamespace uid) k).isSome
    · rw [if_pos h1]
      exact kvGet_filterOut s (userNamespace uid) k
    · rw [if_neg h1]
      exact Option.not_isSome_iff_eq_none.mp h1
  have hpres : ∀ (s : KvStore) (k k2 : String),
      kvGet s (userNamespace uid) k = none →
      kvGet (deleteTolerant s (userNamespace uid) k2) (userNamespace uid) k = none := by
    intro s k k2 h
    unfold deleteTolerant kvDelete
    by_cases h1 : (kvGet s (userNamespace uid) k2).isSome
    · rw [if_pos h1]
      exact kvGet_none_filter s (userNamespace uid) k _ h
    · rw [if_neg h1]
      exact h
  have hP1 : kvGet
      (deleteTolerant (deleteTolerant st (userNamespace uid) "session")
        (userNamespace uid) "user_info") (userNamespace uid) "session" = none :=
    hpres _ "session" "user_info" (hone st "session")
  have hP2 : kvGet
      (deleteTolerant (deleteTolerant st (userNamespace uid) "session")
        (userNamespace uid) "user_info") (userNamespace uid) "user_info" = none :=
    hone _ "user_info"
  refine ⟨deleteTolerant (deleteTolerant st (userNamespace uid) "session")
    (userNamespace uid) "user_info", rfl, ?_, ?_⟩
  · -- not authenticated after logout
    unfold isAuthenticated
    rw [hP1]
  · -- second logout succeeds and leaves the store unchanged
    have habsent : ∀ (s : KvStore) (k : String),
        kvGet s (userNamespace uid) k = none →
        deleteTolerant s (userNamespace uid) k = s := by
      intro s k h
      unfold deleteTolerant kvDelete
      rw [if_neg (by simp [h])]
    unfold logout
    rw [habsent _ "session" hP1, habsent _ "user_info" hP2]

/-- C10: the resume-task endpoint (on a non-empty task id) returns 404
when no task with that id is stored, a 400 validation error when the
stored task's status is not `paused` (with the store unchanged in both
cases), and only for a `paused` task stores the record with status set
to `running` and every other field — the recorded progress included —
preserved. -/
theorem C10_resume_only_from_paused (st : TaskStore) (taskID : String) (h : taskID ≠ "") :
    resumeTask st taskID =
      (match getTaskInfo st taskID with
       | none => (notFoundErrorResp "Task not found", st)
       | some task =>
           if task.Status ≠ "paused" then
             (validationErrorResp "Task is not in paused state", st)
           else
             (successWithMessageResp "Task resumed successfully",
               taskStoreSet st taskID { task with Status := "running" })) := by
  unfold resumeTask
  rw [if_neg h]
  cases hg : getTaskInfo st taskID with
  | none => rfl
  | some task =>
      dsimp only
      by_cases hs : task.Status ≠ "paused"
      · rw [if_pos hs, if_pos hs]
      · rw [if_neg hs, if_neg hs]
        rw [updateTaskStatus_running st taskID task hg]

/-- C10 witness: a concrete store holding one paused task at 40 percent;
resuming it succeeds and stores the same record with status `running`
and the progress still 40. -/
theorem C10_witness :
    ("dl-1" ≠ "") ∧
    resumeTask
        [("dl-1",
          { ID := "dl-1", TaskType := "download", Name := "task", Status := "paused",
            Progress := 40, Speed := "0 B/s", ETA := "--", Transferred := 0, Total := 0,
            CreatedAt := 0, ErrorMsg := "" })]
        "dl-1" =
      (match getTaskInfo
          [("dl-1",
            { ID := "dl-1", TaskType := "download", Name := "task", Status := "paused",
              Progress := 40, Speed := "0 B/s", ETA := "--", Transferred := 0, Total := 0,
              CreatedAt := 0, ErrorMsg := "" })]
          "dl-1" with
       | none =>
           (notFoundErrorResp "Task not found",
             [("dl-1",
               { ID := "dl-1", TaskType := "download", Name := "task", Status := "paused",
                 Progress := 40, Speed := "0 B/s", ETA := "--", Transferred := 0, Total := 0,
                 CreatedAt := 0, ErrorMsg := "" })])
       | some task =>
           if task.Status ≠ "paused" then
             (validationErrorResp "Task is not in paused state",
               [("dl-1",
                 { ID := "dl-1", TaskType := "download", Name := "task", Status := "paused",
                   Progress := 40, Speed := "0 B/s", ETA := "--", Transferred := 0, Total := 0,
                   CreatedAt := 0, ErrorMsg := "" })])
           else
             (successWithMessageResp "Task resumed successfully",
               taskStoreSet
                 [("dl-1",
                   { ID := "dl-1", TaskType := "download", Name := "task", Status := "paused",
                     Progress := 40, Speed := "0 B/s", ETA := "--", Transferred := 0, Total := 0,
                     CreatedAt := 0, ErrorMsg := "" })]
                 "dl-1" { task with Status := "running" })) :=
  ⟨by decide,
    C10_resume_only_from_paused
      [("dl-1",
        { ID := "dl-1", TaskType := "download", Name := "task", Status := "paused",
          Progress := 40, Speed := "0 B/s", ETA := "--", Transferred := 0, Total := 0,
          CreatedAt := 0, ErrorMsg := "" })]
      "dl-1" (by decide)⟩

/-- C6 witness for the amended statement: applying the completion update
to a store holding a running task with 3 recorded failures yields the
completed record with `Failed` reset to 0. -/
theorem C6_witness :
    forwardTaskLoad
        [("fwd-2",
          { ID := "fwd-2", TaskType := "forward", Name := "n", Status := "running",
            Progress := 50, Speed := "1.0 msg/s", ETA := "--", Forwarded := 5,
            Total := 9, Failed := 3, CreatedAt := 0, ErrorMsg := "",
            FromSources := ["a"], ToChat := "b" })]
        "fwd-2" =
      some
        { ID := "fwd-2", TaskType := "forward", Name := "n", Status := "running",
          Progress := 50, Speed := "1.0 msg/s", ETA := "--", Forwarded := 5,
          Total := 9, Failed := 3, CreatedAt := 0, ErrorMsg := "",
          FromSources := ["a"], ToChat := "b" } ∧
    forwardTaskLoad
        (completeForwardTask
          [("fwd-2",
            { ID := "fwd-2", TaskType := "forward", Name := "n", Status := "running",
              Progress := 50, Speed := "1.0 msg/s", ETA := "--", Forwarded := 5,
              Total := 9, Failed := 3, CreatedAt := 0, ErrorMsg := "",
              FromSources := ["a"], ToChat := "b" })]
          "fwd-2")
        "fwd-2" =
      some
        { ({ ID := "fwd-2", TaskType := "forward", Name := "n", Status := "running",
             Progress := 50, Speed := "1.0 msg/s", ETA := "--", Forwarded := 5,
             Total := 9, Failed := 3, CreatedAt := 0, ErrorMsg := "",
             FromSources := ["a"], ToChat := "b" } : ForwardTaskInfo) with
          Status := "completed", Progress := 100, Forwarded := 0, Failed := 0 } :=
  ⟨by decide,
    C6_forward_completion_resets_failed
      [("fwd-2",
        { ID := "fwd-2", TaskType := "forward", Name := "n", Status := "running",
          Progress := 50, Speed := "1.0 msg/s", ETA := "--", Forwarded := 5,
          Total := 9, Failed := 3, CreatedAt := 0, ErrorMsg := "",
          FromSources := ["a"], ToChat := "b" })]
      "fwd-2" _ (by decide)⟩

/-! ## Lemmas about the embedded `net.ParseIP` -/

theorem hexDigitVal_isSome_of_digit (c : Char) (h : isDigitByte c = true) :
    (hexDigitVal c).isSome = true := by
  unfold isDigitByte at h
  simp only [Bool.and_eq_true, decide_eq_true_eq] at h
  unfold hexDigitVal
  rw [if_pos h]
  rfl

theorem eq_cons_of_head_some {l : List Char} {x : Char} (h : l.head? = some x) :
    l = x :: l.tail := by
  cases l with
  | nil => simp at h
  | cons a t =>
      simp only [List.head?_cons, Option.some.injEq] at h
      rw [h]
      rfl

theorem ipv4Loop_chars (s : List Char) :
    ∀ (val digLen pos : Nat) (fields r : List Nat),
      ipv4Loop s val digLen pos fields = some r →
      ∀ c ∈ s, isDigitByte c = true ∨ c = '.' := by
  induction s with
  | nil =>
      intro _ _ _ _ _ _ c hc
      exact absurd hc (List.not_mem_nil c)
  | cons a rest ih =>
      intro val digLen pos fields r hsome c hc
      unfold ipv4Loop at hsome
      by_cases hd : isDigitByte a
      · rw [if_pos hd] at hsome
        by_cases hz : digLen = 1 ∧ val = 0
        · rw [if_pos hz] at hsome
          exact absurd hsome (by simp)
        · rw [if_neg hz] at hsome
          by_cases hv : 255 < val * 10 + (a.toNat - 48)
          · rw [if_pos hv] at hsome
            exact absurd hsome (by simp)
          · rw [if_neg hv] at hsome
            rcases List.mem_cons.mp hc with rfl | hm
            · exact Or.inl hd
            · exact ih _ _ _ _ _ hsome c hm
      · rw [if_neg hd] at hsome
        by_cases hdot : a = '.'
        · rw [if_pos hdot] at hsome
          by_cases h1 : digLen = 0 ∨ rest = []
          · rw [if_pos h1] at hsome
            exact absurd hsome (by simp)
          · rw [if_neg h1] at hsome
            by_cases h2 : pos = 3
            · rw [if_pos h2] at hsome
              exact absurd hsome (by simp)
            · rw [if_neg h2] at hsome
              rcases List.mem_cons.mp hc with rfl | hm
              · exact Or.inr hdot
              · exact ih _ _ _ _ _ hsome c hm
        · rw [if_neg hdot] at hsome
          exact absurd hsome (by simp)

theorem ipv4Loop_pos_or_dot (s : List Char) :
    ∀ (val digLen pos : Nat) (fields r : List Nat),
      ipv4Loop s val digLen pos fields = some r →
      3 ≤ pos ∨ '.' ∈ s := by
  induction s with
  | nil =>
      intro val digLen pos fields r hsome
      unfold ipv4Loop at hsome
      by_cases h0 : digLen = 0
      · rw [if_pos h0] at hsome
        exact absurd hsome (by simp)
      · rw [if_neg h0] at hsome
        by_cases h1 : pos < 3
        · rw [if_pos h1] at hsome
          exact absurd hsome (by simp)
        · rw [if_neg h1] at hsome
          exact Or.inl (Nat.le_of_not_lt h1)
  | cons a rest ih =>
      intro val digLen pos fields r hsome
      unfold ipv4Loop at hsome
      by_cases hd : isDigitByte a
      · rw [if_pos hd] at hsome
        by_cases hz : digLen = 1 ∧ val = 0
        · rw [if_pos hz] at hsome
          exact absurd hsome (by simp)
        · rw [if_neg hz] at hsome
          by_cases hv : 255 < val * 10 + (a.toNat - 48)
          · rw [if_pos hv] at hsome
            exact absurd hsome (by simp)
          · rw [if_neg hv] at hsome
            rcases ih _ _ _ _ _ hsome with hp | hm
            · exact Or.inl hp
            · exact Or.inr (List.mem_cons_of_mem _ hm)
      · rw [if_neg hd] at hsome
        by_cases hdot : a = '.'
        · rw [hdot] at hsome ⊢
          exact Or.inr (List.mem_cons_self _ _)
        · rw [if_neg hdot] at hsome
          exact absurd hsome (by simp)

theorem parseIPv4Go_chars (s : List Char) (r : List Nat)
    (h : parseIPv4Go s = some r) :
    ∀ c ∈ s, isDigitByte c = true ∨ c = '.' :=
  ipv4Loop_chars s 0 0 0 [] r h

theorem parseIPv4Go_has_dot (s : List Char) (r : List Nat)
    (h : parseIPv4Go s = some r) : '.' ∈ s := by
  rcases ipv4Loop_pos_or_dot s 0 0 0 [] r h with hp | hm
  · exact absurd hp (by omega)
  · exact hm

theorem hexGroupLoop_take_chars (s : List Char) :
    ∀ (acc v off : Nat), hexGroupLoop s acc = some (v, off) →
      ∀ c ∈ s.take off, (hexDigitVal c).isSome = true := by
  induction s with
  | nil =>
      intro acc v off h c hc
      unfold hexGroupLoop at h
      simp only [Option.some.injEq, Prod.mk.injEq] at h
      rw [← h.2] at hc
      exact absurd hc (List.not_mem_nil c)
  | cons a rest ih =>
      intro acc v off h c hc
      unfold hexGroupLoop at h
      cases hx : hexDigitVal a with
      | none =>
          rw [hx] at h
          simp only [Option.some.injEq, Prod.mk.injEq] at h
          rw [← h.2] at hc
          exact absurd hc (List.not_mem_nil c)
      | some d =>
          rw [hx] at h
          simp only at h
          by_cases hv : 65535 < acc * 16 + d
          · rw [if_pos hv] at h
            exact absurd h (by simp)
          · rw [if_neg hv] at h
            cases hr : hexGroupLoop rest (acc * 16 + d) with
            | none =>
                rw [hr] at h
                exact absurd h (by simp)
            | some r2 =>
                rw [hr] at h
                simp only [Option.some.injEq, Prod.mk.injEq] at h
                rw [← h.2] at hc
                rw [List.take_succ_cons] at hc
                rcases List.mem_cons.mp hc with rfl | hm
                · rw [hx]
                  rfl
                · exact ih _ r2.1 r2.2 (by rw [hr]) c hm

theorem ipv6Loop_chars (fuel : Nat) :
    ∀ (s : List Char) (i : Nat) (ell : Option Nat) (ip : List Nat)
      (r : Nat × Option Nat × List Nat × List Char),
      ipv6Loop fuel s i ell ip = some r →
      ∀ c ∈ s, ipCharB c = true ∨ c ∈ r.2.2.2 := by
  induction fuel with
  | zero =>
      intro s i ell ip r h
      exact absurd h (by simp [ipv6Loop])
  | succ fuel ih =>
      intro s i ell ip r h c hc
      unfold ipv6Loop at h
      by_cases hi : 16 ≤ i
      · rw [if_pos hi] at h
        simp only [Option.some.injEq] at h
        rw [← h]
        exact Or.inr hc
      · rw [if_neg hi] at h
        rcases hg : hexGroupLoop s 0 with _ | ⟨acc, off⟩
        · rw [hg] at h
          exact absurd h (by simp)
        · rw [hg] at h
          simp only at h
          by_cases hoff : off = 0
          · rw [if_pos hoff] at h
            exact absurd h (by simp)
          · rw [if_neg hoff] at h
            have htake : ∀ x ∈ s.take off, ipCharB x = true := by
              intro x hx
              have := hexGroupLoop_take_chars s 0 acc off hg x hx
              simp [ipCharB, this]
            have hmem : c ∈ s.take off ∨ c ∈ s.drop off := by
              rw [← List.take_append_drop off s] at hc
              exact List.mem_append.mp hc
            by_cases hdot : (s.drop off).head? = some '.'
            · rw [if_pos hdot] at h
              by_cases he : ell.isNone ∧ i ≠ 12
              · rw [if_pos he] at h
                exact absurd h (by simp)
              · rw [if_neg he] at h
                by_cases h16 : 16 < i + 4
                · rw [if_pos h16] at h
                  exact absurd h (by simp)
                · rw [if_neg h16] at h
                  cases h4 : parseIPv4Go s with
                  | none =>
                      rw [h4] at h
                      exact absurd h (by simp)
                  | some fields =>
                      rcases parseIPv4Go_chars s fields h4 c hc with hd | hd
                      · exact Or.inl (by simp [ipCharB, hexDigitVal_isSome_of_digit c hd])
                      · exact Or.inl (by simp [ipCharB, hd])
            · rw [if_neg hdot] at h
              by_cases hnil : s.drop off = []
              · rw [if_pos hnil] at h
                rcases hmem with hm | hm
                · exact Or.inl (htake c hm)
                · rw [hnil] at hm
                  exact absurd hm (List.not_mem_nil c)
              · rw [if_neg hnil] at h
                by_cases hco : (s.drop off).head? ≠ some ':'
                · rw [if_pos hco] at h
                  exact absurd h (by simp)
                · rw [if_neg hco] at h
                  push_neg at hco
                  have hdcons : s.drop off = ':' :: (s.drop off).tail :=
                    eq_cons_of_head_some hco
                  by_cases hlen : (s.drop off).length = 1
                  · rw [if_pos hlen] at h
                    exact absurd h (by simp)
                  · rw [if_neg hlen] at h
                    by_cases hc2 : (s.drop off).tail.head? = some ':'
                    · rw [if_pos hc2] at h
                      have htcons : (s.drop off).tail = ':' :: (s.drop off).tail.tail :=
                        eq_cons_of_head_some hc2
                      by_cases hell : ell.isSome
                      · rw [if_pos hell] at h
                        exact absurd h (by simp)
                      · rw [if_neg hell] at h
                        by_cases htt : (s.drop off).tail.tail = []
                        · rw [if_pos htt] at h
                          rcases hmem with hm | hm
                          · exact Or.inl (htake c hm)
                          · rw [hdcons] at hm
                            rcases List.mem_cons.mp hm with rfl | hm2
                            · exact Or.inl (by simp [ipCharB])
                            · rw [htcons] at hm2
                              rcases List.mem_cons.mp hm2 with rfl | hm3
                              · exact Or.inl (by simp [ipCharB])
                              · rw [htt] at hm3
                                exact absurd hm3 (List.not_mem_nil c)
                        · rw [if_neg htt] at h
                          rcases hmem with hm | hm
                          · exact Or.inl (htake c hm)
                          · rw [hdcons] at hm
                            rcases List.mem_cons.mp hm with rfl | hm2
                            · exact Or.inl (by simp [ipCharB])
                            · rw [htcons] at hm2
                              rcases List.mem_cons.mp hm2 with rfl | hm3
                              · exact Or.inl (by simp [ipCharB])
                              · exact ih _ _ _ _ _ h c hm3
                    · rw [if_neg hc2] at h
                      rcases hmem with hm | hm
                      · exact Or.inl (htake c hm)
                      · rw [hdcons] at hm
                        rcases List.mem_cons.mp hm with rfl | hm2
                        · exact Or.inl (by simp [ipCharB])
                        · exact ih _ _ _ _ _ h c hm2

theorem ipv6Finish_some (o : Option (Nat × Option Nat × List Nat × List Char))
    (bs : List Nat) (h : ipv6Finish o = some bs) :
    ∃ p : Nat × Option Nat × List Nat, o = some (p.1, p.2.1, p.2.2, ([] : List Char)) := by
  cases o with
  | none => exact absurd h (by simp [ipv6Finish])
  | some q =>
      obtain ⟨i, ell, ip, sRem⟩ := q
      simp only [ipv6Finish] at h
      by_cases hr : sRem ≠ []
      · rw [if_pos hr] at h
        exact absurd h (by simp)
      · push_neg at hr
        exact ⟨(i, ell, ip), by rw [hr]⟩

theorem parseIPv6Go_chars (s : List Char) (bs : List Nat)
    (h : parseIPv6Go s = some bs) : ∀ c ∈ s, ipCharB c = true := by
  unfold parseIPv6Go at h
  by_cases hp : strContains s '%'
  · rw [if_pos hp] at h
    exact absurd h (by simp)
  · rw [if_neg hp] at h
    by_cases hlead : 2 ≤ s.length ∧ s.head? = some ':' ∧ s.tail.head? = some ':'
    · rw [if_pos hlead] at h
      have hs1 : s = ':' :: s.tail := eq_cons_of_head_some hlead.2.1
      have hs2 : s.tail = ':' :: s.tail.tail := eq_cons_of_head_some hlead.2.2
      intro c hc
      by_cases hrest : s.tail.tail = []
      · rw [hs1] at hc
        rcases List.mem_cons.mp hc with rfl | hm
        · simp [ipCharB]
        · rw [hs2] at hm
          rcases List.mem_cons.mp hm with rfl | hm2
          · simp [ipCharB]
          · rw [hrest] at hm2
            exact absurd hm2 (List.not_mem_nil c)
      · rw [if_neg hrest] at h
        obtain ⟨p, hp2⟩ := ipv6Finish_some _ _ h
        have hlc := ipv6Loop_chars _ _ _ _ _ _ hp2
        rw [hs1] at hc
        rcases List.mem_cons.mp hc with rfl | hm
        · simp [ipCharB]
        · rw [hs2] at hm
          rcases List.mem_cons.mp hm with rfl | hm2
          · simp [ipCharB]
          · rcases hlc c hm2 with hok | hbad
            · exact hok
            · exact absurd hbad (List.not_mem_nil c)
    · rw [if_neg hlead] at h
      obtain ⟨p, hp2⟩ := ipv6Finish_some _ _ h
      have hlc := ipv6Loop_chars _ _ _ _ _ _ hp2
      intro c hc
      rcases hlc c hc with hok | hbad
      · exact hok
      · exact absurd hbad (List.not_mem_nil c)

theorem goParseIP_chars (s : List Char) (ip : GoIP) (h : goParseIP s = some ip) :
    ∀ c ∈ s, ipCharB c = true := by
  unfold goParseIP at h
  cases hf : s.find? (fun c => decide (c = '.') || decide (c = ':') || decide (c = '%')) with
  | none =>
      rw [hf] at h
      exact absurd h (by simp)
  | some c0 =>
      rw [hf] at h
      dsimp only at h
      by_cases h1 : c0 = '.'
      · rw [if_pos h1] at h
        cases h4 : parseIPv4Go s with
        | none =>
            rw [h4] at h
            exact absurd h (by simp)
        | some f =>
            intro c hc
            rcases parseIPv4Go_chars s f h4 c hc with hd | hd
            · simp [ipCharB, hexDigitVal_isSome_of_digit c hd]
            · simp [ipCharB, hd]
      · rw [if_neg h1] at h
        by_cases h2 : c0 = ':'
        · rw [if_pos h2] at h
          cases h6 : parseIPv6Go s with
          | none =>
              rw [h6] at h
              exact absurd h (by simp)
          | some bs => exact parseIPv6Go_chars s bs h6
        · rw [if_neg h2] at h
          exact absurd h (by simp)

theorem goParseIP_no_colon_v4 (s : List Char) (ip : GoIP)
    (h : goParseIP s = some ip) (hcol : ':' ∉ s) :
    ∃ f, parseIPv4Go s = some f ∧ ip = GoIP.v4 f := by
  unfold goParseIP at h
  cases hf : s.find? (fun c => decide (c = '.') || decide (c = ':') || decide (c = '%')) with
  | none =>
      rw [hf] at h
      exact absurd h (by simp)
  | some c0 =>
      rw [hf] at h
      dsimp only at h
      have hmem : c0 ∈ s := List.mem_of_find?_eq_some hf
      by_cases h1 : c0 = '.'
      · rw [if_pos h1] at h
        cases h4 : parseIPv4Go s with
        | none =>
            rw [h4] at h
            exact absurd h (by simp)
        | some f =>
            rw [h4] at h
            simp at h
            exact ⟨f, rfl, h.symm⟩
      · by_cases h2 : c0 = ':'
        · rw [h2] at hmem
          exact absurd hmem hcol
        · rw [if_neg h1, if_neg h2] at h
          exact absurd h (by simp)

theorem mem_replaceAllChar {s : List Char} {a b c : Char}
    (h : c ∈ replaceAllChar s a b) : c = b ∨ (c ∈ s ∧ c ≠ a) := by
  unfold replaceAllChar at h
  obtain ⟨d, hd, he⟩ := List.mem_map.mp h
  by_cases hda : d = a
  · rw [if_pos hda] at he
    exact Or.inl he.symm
  · rw [if_neg hda] at he
    rw [← he]
    exact Or.inr ⟨hd, hda⟩

theorem mem_replaceAllChar_self {s : List Char} {a b : Char} (h : a ∈ s) :
    b ∈ replaceAllChar s a b := by
  unfold replaceAllChar
  refine List.mem_map.mpr ⟨a, h, ?_⟩
  rw [if_pos rfl]

theorem replaceAllChar_inverse {s : List Char} {a b : Char}
    (hb : b ∉ s) : replaceAllChar (replaceAllChar s a b) b a = s := by
  unfold replaceAllChar
  rw [List.map_map]
  have hcongr : ∀ x ∈ s,
      ((fun c => if c = b then a else c) ∘ (fun c => if c = a then b else c)) x = x := by
    intro x hx
    by_cases hxa : x = a
    · simp [hxa]
    · have hxb : x ≠ b := fun hc => hb (hc ▸ hx)
      simp [hxa, hxb]
  calc s.map ((fun c => if c = b then a else c) ∘ (fun c => if c = a then b else c))
      = s.map id := List.map_congr_left hcongr
    _ = s := List.map_id s

/-- C9 (amended): for every string accepted by `net.ParseIP`,
`RestoreClientIP (SafeClientID ip) = ip` and the safe identifier
contains no `:`; the original claim's further guarantee that the output
contains no `.` fails for IPv6 addresses with an embedded dotted IPv4
part (see the counterexample), so only the `:`-freeness survives. -/
theorem C9_safe_client_id_roundtrip (s : List Char)
    (h : (goParseIP s).isSome = true) :
    restoreClientIP (safeClientID s) = s ∧ ':' ∉ safeClientID s := by
  obtain ⟨ip, hip⟩ := Option.isSome_iff_exists.mp h
  have hchars := goParseIP_chars s ip hip
  have hnu : ('_' : Char) ∉ s := by
    intro hm
    have h2 := hchars _ hm
    have h3 : ipCharB '_' = false := by decide
    rw [h3] at h2
    exact absurd h2 (by simp)
  have hnd : ('-' : Char) ∉ s := by
    intro hm
    have h2 := hchars _ hm
    have h3 : ipCharB '-' = false := by decide
    rw [h3] at h2
    exact absurd h2 (by simp)
  by_cases hcolon : (':' : Char) ∈ s
  · have hsafe : safeClientID s = replaceAllChar s ':' '_' := by
      unfold safeClientID
      rw [if_pos (by simp [strContains, hcolon])]
    constructor
    · rw [hsafe]
      unfold restoreClientIP
      have hu : ('_' : Char) ∈ replaceAllChar s ':' '_' := mem_replaceAllChar_self hcolon
      rw [if_neg (by simp [strContains, hu])]
      rw [if_pos (by simp [strContains, hu])]
      exact replaceAllChar_inverse hnu
    · rw [hsafe]
      intro hm
      rcases mem_replaceAllChar hm with he | ⟨_, hne⟩
      · exact absurd he (by decide)
      · exact hne rfl
  · obtain ⟨f, hf4, hipv⟩ := goParseIP_no_colon_v4 s ip hip hcolon
    have hdot : ('.' : Char) ∈ s := parseIPv4Go_has_dot s f hf4
    have hsafe : safeClientID s = replaceAllChar s '.' '-' := by
      unfold safeClientID
      rw [if_neg (by simp [strContains, hcolon])]
      rw [if_pos (by rw [hip, hipv]; rfl)]
    constructor
    · rw [hsafe]
      unfold restoreClientIP
      have hdash : ('-' : Char) ∈ replaceAllChar s '.' '-' := mem_replaceAllChar_self hdot
      have hund : ('_' : Char) ∉ replaceAllChar s '.' '-' := by
        intro hm
        rcases mem_replaceAllChar hm with he | ⟨hmem, _⟩
        · exact absurd he (by decide)
        · exact hnu hmem
      rw [if_pos (by simp [strContains, hdash, hund])]
      exact replaceAllChar_inverse hnd
    · rw [hsafe]
      intro hm
      rcases mem_replaceAllChar hm with he | ⟨hmem, _⟩
      · exact absurd he (by decide)
      · exact hcolon hmem

/-- C9 witness: the IPv4 address `1.2.3.4` is accepted by the parser,
round-trips through `SafeClientID`/`RestoreClientIP`, and its safe form
contains no colon. -/
theorem C9_witness :
    ((goParseIP "1.2.3.4".toList).isSome = true) ∧
    (restoreClientIP (safeClientID "1.2.3.4".toList) = "1.2.3.4".toList ∧
      ':' ∉ safeClientID "1.2.3.4".toList) :=
  ⟨by decide, C9_safe_client_id_roundtrip ("1.2.3.4".toList) (by decide)⟩

/-- C9 counterexample: `::ffff:1.2.3.4` is a valid address for
`net.ParseIP`, yet `SafeClientID` keeps its `.` separators
(the output is `__ffff_1.2.3.4`), contradicting the claim that the
output contains no filesystem-unsafe `.`. -/
theorem C9_counterexample :
    (goParseIP "::ffff:1.2.3.4".toList).isSome = true ∧
    '.' ∈ safeClientID "::ffff:1.2.3.4".toList ∧
    safeClientID "::ffff:1.2.3.4".toList = "__ffff_1.2.3.4".toList := by
  refine ⟨by decide, by decide, by decide⟩

end TdlWeb
